import Mathlib

/-!
Verification of the git-project-fetcher batch repository synchronizer.

This file gives a shallow embedding of the program's core: the per-project
synchronization engine (`process_project` in `project_logic.rs`), the git
subprocess wrappers (`git_utils.rs`), and the orchestration loop of `main.rs`.

External effects (filesystem queries and git subprocess outcomes) are modelled
by an environment `GitEnv` of response functions; each git invocation is
recorded in a trace of `Invocation` values (working directory plus argument
list), so that theorems can speak about which subprocesses were launched, in
which order, and with which arguments.  Launch failures of the external
executable (`std::io::Error` from `Command::output`) are not modelled: the
environment always yields a completed process with an exit status and captured
output, which is what all the verified claims are about.
-/

set_option maxHeartbeats 1000000

namespace GitProjectFetcher

/-- Outcome of one completed git subprocess: exit-status success flag and the
captured standard output / standard error text. -/
structure CmdResult where
  success : Bool
  stdout : String
  stderr : String
deriving Repr, DecidableEq

/-- One subprocess invocation as issued by the program: the working directory
passed via `Command::current_dir` (`none` when the call site sets none, so the
child inherits the process working directory) and the argument list after the
`git` executable name. -/
structure Invocation where
  cwd : Option String
  args : List String
deriving Repr, DecidableEq

/-- Environment of external responses: filesystem queries and the result of
each kind of git subprocess.  `revParse` is indexed by the repository path and
by how many `git rev-parse --abbrev-ref HEAD` calls have already been made for
the project, since the current branch can change between queries. -/
structure GitEnv where
  home : String
  pathExists : String → Bool
  isGitRepo : String → Bool
  createDirsOk : String → Bool
  cloneRes : String → String → CmdResult
  revParse : String → Nat → CmdResult
  checkoutRes : String → String → CmdResult
  pullRes : String → Option String → CmdResult

/-- State threaded through one project's processing: the number of rev-parse
queries made so far and the trace of subprocess invocations issued so far. -/
structure SyncState where
  revCount : Nat
  trace : List Invocation
deriving Repr, DecidableEq

deriving instance DecidableEq for Except

/-- Append one invocation to the trace. -/
def record (s : SyncState) (inv : Invocation) : SyncState :=
  ⟨s.revCount, s.trace ++ [inv]⟩

/- ---------- string / path helpers (models of `std::path` and `shellexpand`) ---------- -/

/-- Model of Rust `str::trim` over the character list (whitespace stripped from
both ends). -/
def strTrim (s : String) : String :=
  String.mk (((s.data.dropWhile Char.isWhitespace).reverse.dropWhile Char.isWhitespace).reverse)

/-- Model of Unix `Path::is_absolute`: the path starts with the root
separator. -/
def isAbsolute (p : String) : Bool :=
  match p.data with
  | [] => false
  | c :: _ => c = '/'

/-- Model of `shellexpand::tilde`: a leading bare `~` (alone or followed by a
separator) is replaced by the home directory; anything else is returned
unchanged. -/
def tildeExpand (home s : String) : String :=
  match s.data with
  | ['~'] => home
  | '~' :: '/' :: rest => home ++ String.mk ('/' :: rest)
  | _ => s

/-- Model of `PathBuf::join` on Unix: an absolute right operand replaces the
left; otherwise the components are concatenated with a single separator
inserted when needed. -/
def pathJoin (a b : String) : String :=
  if isAbsolute b then b
  else if a.data = [] then b
  else if a.data.getLast? = some '/' then a ++ b
  else a ++ "/" ++ b

/-- Split a character list on a separator character. -/
def splitChar (c : Char) : List Char → List (List Char)
  | [] => [[]]
  | x :: xs =>
    if x = c then [] :: splitChar c xs
    else
      match splitChar c xs with
      | h :: t => (x :: h) :: t
      | [] => [[x]]

/-- Model of `Path::parent` for paths in normal form (no trailing separator):
drop the final component; `none` for the empty path and for the root. -/
def parentOf (p : String) : Option String :=
  if p = "" then none
  else if p = "/" then none
  else
    match (splitChar '/' p.data).dropLast with
    | [] => some ""
    | [[]] => some "/"
    | parts => some (String.mk (List.intercalate ['/'] parts))

/-- Substring search helper: does the pattern occur starting at any suffix? -/
def containsAux (pat : List Char) : List Char → Bool
  | [] => pat.isEmpty
  | c :: rest => pat.isPrefixOf (c :: rest) || containsAux pat rest

/-- Model of Rust `str::contains` with a string pattern: substring test,
case-sensitive. -/
def strContains (s pat : String) : Bool :=
  containsAux pat.data s.data

/- ---------- invocation shapes ---------- -/

/-- The `git rev-parse --abbrev-ref HEAD` invocation issued by
`get_current_branch`, run inside the repository. -/
def revParseInv (repo : String) : Invocation :=
  ⟨some repo, ["rev-parse", "--abbrev-ref", "HEAD"]⟩

/-- The `git checkout <branch>` invocation issued by `checkout_branch`, run
inside the repository. -/
def checkoutInv (repo branch : String) : Invocation :=
  ⟨some repo, ["checkout", branch]⟩

/-- Argument list of the pull subprocess: `git pull origin <branch>` when a
branch is given, plain `git pull` otherwise. -/
def pullArgs : Option String → List String
  | some b => ["pull", "origin", b]
  | none => ["pull"]

/-- The pull invocation issued by `pull_branch_updates`, run inside the
repository. -/
def pullInv (repo : String) (branch_to_pull : Option String) : Invocation :=
  ⟨some repo, pullArgs branch_to_pull⟩

/-- The `git clone <url> <target>` invocation issued by `clone_repo`.  The
source sets no working directory on this command, so `cwd` is `none`. -/
def cloneInv (repo_url target_path : String) : Invocation :=
  ⟨none, ["clone", repo_url, target_path]⟩

/-- Recognize a clone invocation by its first argument. -/
def isCloneInv (inv : Invocation) : Bool :=
  match inv.args with
  | "clone" :: _ => true
  | _ => false

/-- Recognize a checkout invocation by its first argument. -/
def isCheckoutInv (inv : Invocation) : Bool :=
  match inv.args with
  | "checkout" :: _ => true
  | _ => false

/-- Recognize a pull invocation by its first argument. -/
def isPullInv (inv : Invocation) : Bool :=
  match inv.args with
  | "pull" :: _ => true
  | _ => false

/- ---------- errors (error.rs) ---------- -/

/-- `GitError` from `error.rs` (the `CommandExecution` launch-failure variant
is not modelled; see the module comment). -/
inductive GitError where
  | commandFailed (project_name command stdout stderr : String)
  | branchInfoError (project_name message : String)
deriving Repr, DecidableEq

/-- How a successful pull was reported: `alreadyUpToDate` corresponds to the
informational "already up to date" log line, `updated` to the success log
line. -/
inductive PullOutcome where
  | alreadyUpToDate
  | updated
deriving Repr, DecidableEq

/-- `ProjectError` from `error.rs`. -/
inductive ProjectError where
  | createDirs (project_name path : String)
  | gitOperation (project_name : String) (source : GitError)
  | notGitRepository (project_name path : String)
deriving Repr, DecidableEq

/- ---------- git_utils.rs ---------- -/

/-- `is_git_repo`: presence of the `.git` metadata directory, answered by the
environment. -/
def is_git_repo (env : GitEnv) (path : String) : Bool :=
  env.isGitRepo path

/-- `clone_repo` from `git_utils.rs`: run `git clone <url> <target>` with no
working-directory override; zero exit is success, non-zero exit yields
`CommandFailed` with the trimmed captured output. -/
def clone_repo (env : GitEnv) (project_name repo_url target_path : String)
    (s : SyncState) : Except GitError Unit × SyncState :=
  let out := env.cloneRes repo_url target_path
  let s1 := record s (cloneInv repo_url target_path)
  if out.success then
    (.ok (), s1)
  else
    (.error (.commandFailed project_name
      ("git clone " ++ repo_url ++ " " ++ target_path)
      (strTrim out.stdout) (strTrim out.stderr)), s1)

/-- `get_current_branch` from `git_utils.rs`: run
`git rev-parse --abbrev-ref HEAD` inside the repository; on success return the
trimmed standard output, otherwise `BranchInfoError`. -/
def get_current_branch (env : GitEnv) (repo_path project_name : String)
    (s : SyncState) : Except GitError String × SyncState :=
  let out := env.revParse repo_path s.revCount
  let s1 : SyncState := ⟨s.revCount + 1, s.trace ++ [revParseInv repo_path]⟩
  if out.success then
    (.ok (strTrim out.stdout), s1)
  else
    (.error (.branchInfoError project_name
      ("Failed to get current branch. Git stderr: " ++ strTrim out.stderr)), s1)

/-- `checkout_branch` from `git_utils.rs`: run `git checkout <branch>` inside
the repository; non-zero exit yields `CommandFailed` with trimmed output. -/
def checkout_branch (env : GitEnv) (repo_path branch project_name : String)
    (s : SyncState) : Except GitError Unit × SyncState :=
  let out := env.checkoutRes repo_path branch
  let s1 := record s (checkoutInv repo_path branch)
  if out.success then
    (.ok (), s1)
  else
    (.error (.commandFailed project_name ("git checkout " ++ branch)
      (strTrim out.stdout) (strTrim out.stderr)), s1)

/-- `pull_branch_updates` from `git_utils.rs`: run `git pull origin <branch>`
for an explicit branch, plain `git pull` otherwise, inside the repository.  On
zero exit, the captured standard output is inspected: if it contains one of
the canonical phrases the pull is reported as an informational no-op
(`alreadyUpToDate`), otherwise as an updated success; non-zero exit yields
`CommandFailed` with trimmed output. -/
def pull_branch_updates (env : GitEnv) (repo_path : String)
    (branch_to_pull : Option String) (project_name : String)
    (s : SyncState) : Except GitError PullOutcome × SyncState :=
  let out := env.pullRes repo_path branch_to_pull
  let command_string := match branch_to_pull with
    | some b => "git pull origin " ++ b
    | none => "git pull"
  let s1 := record s (pullInv repo_path branch_to_pull)
  if out.success then
    if strContains out.stdout "Already up to date." ||
        strContains out.stdout "Bereits aktuell." then
      (.ok .alreadyUpToDate, s1)
    else
      (.ok .updated, s1)
  else
    (.error (.commandFailed project_name command_string
      (strTrim out.stdout) (strTrim out.stderr)), s1)

/- ---------- project_logic.rs ---------- -/

/-- Target path resolution at the top of `process_project`: tilde-expand the
configured path; keep it if absolute, otherwise join it onto the effective
parent clone directory. -/
def resolve_project_path (home parent_clone_dir path : String) : String :=
  let expanded := tildeExpand home path
  if isAbsolute expanded then expanded else pathJoin parent_clone_dir expanded

/-- `ProjectConfig` from `config.rs`. -/
structure ProjectConfig where
  project : String
  url : String
  path : String
  pull_branches : Option (List String)
deriving Repr, DecidableEq

/-- The clone-or-skip section of `process_project`: when the target path does
not exist, ensure the parent directory exists (creating it if needed; creation
failure is `ProjectError::CreateDirs`) and clone, mapping a clone failure to
`ProjectError::GitOperation`.  When the target exists, do nothing. -/
def clone_phase (env : GitEnv) (config : ProjectConfig) (project_path : String)
    (s : SyncState) : Except ProjectError Unit × SyncState :=
  if env.pathExists project_path then
    (.ok (), s)
  else
    let dirStep : Except ProjectError Unit :=
      match parentOf project_path with
      | some parent =>
        if env.pathExists parent then .ok ()
        else if env.createDirsOk parent then .ok ()
        else .error (.createDirs config.project parent)
      | none => .ok ()
    match dirStep with
    | .error e => (.error e, s)
    | .ok _ =>
      match clone_repo env config.project config.url project_path s with
      | (.ok _, s1) => (.ok (), s1)
      | (.error e, s1) => (.error (.gitOperation config.project e), s1)

/-- Condition under which the parent-directory step of `clone_phase` does not
fail: the parent either exists or can be created. -/
def ensure_parent_ok (env : GitEnv) (project_path : String) : Bool :=
  match parentOf project_path with
  | some parent => env.pathExists parent || env.createDirsOk parent
  | none => true

/-- Body of the per-branch loop in `process_project`: checkout the branch; on
success pull it (a pull failure is logged and swallowed), on failure skip the
pull and continue. -/
def pull_loop_step (env : GitEnv) (project_path project_name : String)
    (st : SyncState) (branch_name : String) : SyncState :=
  match checkout_branch env project_path branch_name project_name st with
  | (.ok _, st1) =>
    (pull_branch_updates env project_path (some branch_name) project_name st1).2
  | (.error _, st1) => st1

/-- The explicit-branch-list arm of the pull section of `process_project`:
record the original branch (failure to determine it is non-fatal), loop over
the listed branches, then — when the original branch was determined and the
branch reported afterwards differs from it — attempt one restoring checkout,
whose failure is only logged. -/
def explicit_sync (env : GitEnv) (config : ProjectConfig) (project_path : String)
    (branches_to_pull : List String) (s : SyncState) : SyncState :=
  let q := get_current_branch env project_path config.project s
  let original_branch : Option String := q.1.toOption
  let s2 := branches_to_pull.foldl (pull_loop_step env project_path config.project) q.2
  match original_branch with
  | some orig_branch_name =>
    let q2 := get_current_branch env project_path config.project s2
    if q2.1.toOption ≠ some orig_branch_name then
      (checkout_branch env project_path orig_branch_name config.project q2.2).2
    else q2.2
  | none => s2

/-- The absent-or-empty `pull_branches` arms of `process_project`: query the
current branch for the log message only, then issue a single plain pull whose
failure is logged and swallowed. -/
def current_sync (env : GitEnv) (config : ProjectConfig) (project_path : String)
    (s : SyncState) : SyncState :=
  let q := get_current_branch env project_path config.project s
  (pull_branch_updates env project_path none config.project q.2).2

/-- `process_project` from `project_logic.rs`: resolve the target path, clone
if absent, verify repository-ness, then run the branch-sync section selected
by the tri-state `pull_branches`, returning `Ok` whenever the section is
reached. -/
def process_project (env : GitEnv) (config : ProjectConfig)
    (parent_clone_dir : String) : Except ProjectError Unit × SyncState :=
  let project_path := resolve_project_path env.home parent_clone_dir config.path
  match clone_phase env config project_path ⟨0, []⟩ with
  | (.error e, s) => (.error e, s)
  | (.ok _, s) =>
    if !(is_git_repo env project_path) then
      (.error (.notGitRepository config.project project_path), s)
    else
      match config.pull_branches with
      | some branches_to_pull =>
        if !branches_to_pull.isEmpty then
          (.ok (), explicit_sync env config project_path branches_to_pull s)
        else
          (.ok (), current_sync env config project_path s)
      | none => (.ok (), current_sync env config project_path s)

/- ---------- main.rs ---------- -/

/-- The effective parent directory for relative project paths, computed in
`main`: the configured `default_clone_parent_directory` (tilde-expanded,
resolved against the configuration file's directory when relative); the
configuration file's directory when unset; the process working directory when
set to the empty string. -/
def effective_parent_dir (home config_file_dir app_cwd : String)
    (default_clone_parent_directory : Option String) : String :=
  match default_clone_parent_directory with
  | none => config_file_dir
  | some parent_dir_str =>
    if parent_dir_str = "" then app_cwd
    else
      let expanded_parent_dir := tildeExpand home parent_dir_str
      if isAbsolute expanded_parent_dir then expanded_parent_dir
      else pathJoin config_file_dir expanded_parent_dir

/-- The project loop of `main`: process every project in declared order,
collecting each result and setting the `encountered_project_error` flag on any
failure, never aborting the loop. -/
def run_projects (env : GitEnv) (projects : List ProjectConfig)
    (parent_clone_dir : String) : List (Except ProjectError Unit) × Bool :=
  projects.foldl
    (fun acc project_config =>
      match (process_project env project_config parent_clone_dir).1 with
      | .ok _ => (acc.1 ++ [.ok ()], acc.2)
      | .error e => (acc.1 ++ [.error e], true))
    ([], false)

/-- The final progress-bar summary message of `main`, chosen by the
`encountered_project_error` flag. -/
def run_summary_message (encountered_project_error : Bool) : String :=
  if encountered_project_error then
    "Some projects encountered errors. Check project_fetcher.log for details."
  else
    "All projects processed successfully. Check project_fetcher.log for details."

/- ---------- trace shapes used in theorem statements ---------- -/

/-- Invocations issued by the per-branch loop: one checkout per listed branch
in declared order, each followed by a pull of that branch exactly when its
checkout succeeded. -/
def branchOps (env : GitEnv) (repo : String) : List String → List Invocation
  | [] => []
  | b :: rest =>
    (checkoutInv repo b ::
      (if (env.checkoutRes repo b).success then [pullInv repo (some b)] else []))
    ++ branchOps env repo rest

/-- Invocations issued by the per-branch loop when every checkout succeeds:
checkout then pull, branch by branch in declared order. -/
def branchOpsAll (repo : String) : List String → List Invocation
  | [] => []
  | b :: rest => checkoutInv repo b :: pullInv repo (some b) :: branchOpsAll repo rest

/-- What `get_current_branch` reports as an optional branch name on its
`i`-th invocation for the repository: the trimmed standard output on success,
`none` on failure. -/
def branchQueryResult (env : GitEnv) (repo : String) (i : Nat) : Option String :=
  if (env.revParse repo i).success then some (strTrim (env.revParse repo i).stdout)
  else none

/-- Invocations issued by the restore step after the per-branch loop, when the
first branch query of the project was the `n`-th rev-parse call: nothing when
the original branch was not determined; otherwise a second branch query,
followed by a restoring checkout exactly when the reported branch differs from
the original. -/
def restoreOps (env : GitEnv) (repo : String) (n : Nat) : List Invocation :=
  match branchQueryResult env repo n with
  | some orig =>
    revParseInv repo ::
      (if branchQueryResult env repo (n + 1) ≠ some orig
        then [checkoutInv repo orig] else [])
  | none => []

/-- The full invocation trace of the explicit-branch-list sync section,
starting from `n` prior rev-parse calls. -/
def explicitOps (env : GitEnv) (repo : String) (bs : List String) (n : Nat) :
    List Invocation :=
  revParseInv repo :: (branchOps env repo bs ++ restoreOps env repo n)

/-- Whether processing a project under the environment ends in a
`ProjectError` (the condition under which `main` sets its
`encountered_project_error` flag). -/
def projectFailed (env : GitEnv) (parent_clone_dir : String)
    (c : ProjectConfig) : Bool :=
  match (process_project env c parent_clone_dir).1 with
  | .ok _ => false
  | .error _ => true

/- ---------- concrete environments and configurations for evaluation ---------- -/

/-- A zero-exit subprocess outcome with empty captured output. -/
def okCmd : CmdResult := ⟨true, "", ""⟩

/-- Environment in which every path exists, every directory is a repository,
and every git subprocess exits zero; the first branch query reports `main`,
later ones report `b`. -/
def envAllOk : GitEnv where
  home := "/h"
  pathExists := fun _ => true
  isGitRepo := fun _ => true
  createDirsOk := fun _ => true
  cloneRes := fun _ _ => okCmd
  revParse := fun _ i => ⟨true, if i = 0 then "main" else "b", ""⟩
  checkoutRes := fun _ _ => okCmd
  pullRes := fun _ _ => okCmd

/-- Like `envAllOk`, except checking out branch `a` fails. -/
def envCoFail : GitEnv :=
  { envAllOk with checkoutRes := fun _ b => ⟨!(b = "a"), "", ""⟩ }

/-- Like `envAllOk`, except the path `/w/bad` is absent and every clone exits
non-zero. -/
def envCloneFail : GitEnv :=
  { envAllOk with
      pathExists := fun q => !(q = "/w/bad")
      cloneRes := fun _ _ => ⟨false, "boom", ""⟩ }

/-- Like `envAllOk`, except pulls report the canonical up-to-date phrase. -/
def envPullUTD : GitEnv :=
  { envAllOk with pullRes := fun _ _ => ⟨true, "Already up to date.\n", ""⟩ }

/-- Environment in which every git subprocess exits non-zero; the pull's
captured output even contains the canonical up-to-date phrase. -/
def envNonZero : GitEnv :=
  { envAllOk with
      cloneRes := fun _ _ => ⟨false, "o", "e"⟩
      revParse := fun _ _ => ⟨false, "o", "e"⟩
      checkoutRes := fun _ _ => ⟨false, "o", "e"⟩
      pullRes := fun _ _ => ⟨false, "Already up to date.", ""⟩ }

/-- A project with an explicit two-branch pull list. -/
def cfgTwoBranches : ProjectConfig := ⟨"P", "u", "app", some ["a", "b"]⟩

/-- A project with `pull_branches` absent. -/
def cfgNoBranches : ProjectConfig := ⟨"P", "u", "app", none⟩

/-- A project with `pull_branches` explicitly empty. -/
def cfgEmptyBranches : ProjectConfig := ⟨"P", "u", "app", some []⟩

/-- A project whose target `/w/bad` is absent in `envCloneFail`. -/
def cfgBad : ProjectConfig := ⟨"B", "uB", "bad", none⟩

/-- First healthy neighbour of `cfgBad`. -/
def cfgGoodOne : ProjectConfig := ⟨"A", "uA", "app1", none⟩

/-- Second healthy neighbour of `cfgBad`. -/
def cfgGoodTwo : ProjectConfig := ⟨"C", "uC", "app2", none⟩

/- ---------- basic step lemmas ---------- -/

theorem record_trace (s : SyncState) (inv : Invocation) :
    (record s inv).trace = s.trace ++ [inv] := rfl

theorem pull_snd (env : GitEnv) (repo : String) (br : Option String)
    (proj : String) (s : SyncState) :
    (pull_branch_updates env repo br proj s).2 = record s (pullInv repo br) := by
  simp only [pull_branch_updates]
  split
  · split <;> rfl
  · rfl

theorem checkout_snd (env : GitEnv) (repo b proj : String) (s : SyncState) :
    (checkout_branch env repo b proj s).2 = record s (checkoutInv repo b) := by
  simp only [checkout_branch]
  split <;> rfl

theorem gcb_snd (env : GitEnv) (repo proj : String) (s : SyncState) :
    (get_current_branch env repo proj s).2 =
      ⟨s.revCount + 1, s.trace ++ [revParseInv repo]⟩ := by
  simp only [get_current_branch]
  split <;> rfl

theorem gcb_fst (env : GitEnv) (repo proj : String) (s : SyncState) :
    (get_current_branch env repo proj s).1.toOption =
      branchQueryResult env repo s.revCount := by
  simp only [get_current_branch, branchQueryResult]
  split <;> rfl

theorem checkout_ok_eq (env : GitEnv) (repo b proj : String) (s : SyncState)
    (h : (env.checkoutRes repo b).success = true) :
    checkout_branch env repo b proj s = (.ok (), record s (checkoutInv repo b)) := by
  simp only [checkout_branch]
  simp [h]

theorem pull_loop_step_eq (env : GitEnv) (repo proj : String) (st : SyncState)
    (b : String) :
    pull_loop_step env repo proj st b =
      ⟨st.revCount, st.trace ++ (checkoutInv repo b ::
        (if (env.checkoutRes repo b).success then [pullInv repo (some b)] else []))⟩ := by
  cases h : (env.checkoutRes repo b).success
  · simp [pull_loop_step, checkout_branch, h, record]
  · simp [pull_loop_step, checkout_branch, h, pull_snd, record, List.append_assoc]

theorem foldl_pull_loop (env : GitEnv) (repo proj : String) (bs : List String) :
    ∀ st : SyncState,
      bs.foldl (pull_loop_step env repo proj) st =
        ⟨st.revCount, st.trace ++ branchOps env repo bs⟩ := by
  induction bs with
  | nil => intro st; simp [branchOps]
  | cons b rest ih =>
    intro st
    rw [List.foldl_cons, pull_loop_step_eq, ih]
    simp [branchOps, List.append_assoc]

theorem current_sync_trace (env : GitEnv) (config : ProjectConfig)
    (repo : String) (s : SyncState) :
    (current_sync env config repo s).trace =
      s.trace ++ [revParseInv repo, pullInv repo none] := by
  simp [current_sync, gcb_snd, pull_snd, record, List.append_assoc]

theorem explicit_sync_trace (env : GitEnv) (config : ProjectConfig)
    (repo : String) (bs : List String) (s : SyncState) :
    (explicit_sync env config repo bs s).trace =
      s.trace ++ explicitOps env repo bs s.revCount := by
  simp only [explicit_sync, gcb_fst, gcb_snd, foldl_pull_loop, checkout_snd]
  cases h : (env.revParse repo s.revCount).success
  · simp [branchQueryResult, h, explicitOps, restoreOps, List.append_assoc]
  · simp only [branchQueryResult, h]
    simp [explicitOps, restoreOps, branchQueryResult, h, record, apply_ite,
      List.append_assoc]

theorem branchOps_all (env : GitEnv) (repo : String) (bs : List String)
    (h : ∀ b ∈ bs, (env.checkoutRes repo b).success = true) :
    branchOps env repo bs = branchOpsAll repo bs := by
  induction bs with
  | nil => rfl
  | cons b rest ih =>
    have hb : (env.checkoutRes repo b).success = true :=
      h b (List.mem_cons_self b rest)
    have hr := ih (fun x hx => h x (List.mem_cons_of_mem b hx))
    simp [branchOps, branchOpsAll, hb, hr]

theorem clone_phase_exists (env : GitEnv) (config : ProjectConfig)
    (pp : String) (s : SyncState) (h : env.pathExists pp = true) :
    clone_phase env config pp s = (.ok (), s) := by
  simp [clone_phase, h]

theorem clone_repo_ok (env : GitEnv) (proj url tgt : String) (s : SyncState)
    (h : (env.cloneRes url tgt).success = true) :
    clone_repo env proj url tgt s = (.ok (), record s (cloneInv url tgt)) := by
  simp [clone_repo, h]

theorem clone_repo_fail (env : GitEnv) (proj url tgt : String) (s : SyncState)
    (h : (env.cloneRes url tgt).success = false) :
    clone_repo env proj url tgt s =
      (.error (.commandFailed proj ("git clone " ++ url ++ " " ++ tgt)
        (strTrim (env.cloneRes url tgt).stdout)
        (strTrim (env.cloneRes url tgt).stderr)),
       record s (cloneInv url tgt)) := by
  simp [clone_repo, h]

theorem clone_phase_absent (env : GitEnv) (config : ProjectConfig)
    (pp : String) (s : SyncState)
    (h1 : env.pathExists pp = false) (h2 : ensure_parent_ok env pp = true) :
    clone_phase env config pp s =
      (match clone_repo env config.project config.url pp s with
       | (.ok _, s1) => (.ok (), s1)
       | (.error e, s1) => (.error (.gitOperation config.project e), s1)) := by
  unfold ensure_parent_ok at h2
  cases hp : parentOf pp with
  | none => simp [clone_phase, h1, hp]
  | some parent =>
    rw [hp] at h2
    dsimp only at h2
    cases hpe : env.pathExists parent
    · rw [hpe] at h2
      simp only [Bool.false_or] at h2
      simp [clone_phase, h1, hp, hpe, h2]
    · simp [clone_phase, h1, hp, hpe]

@[simp] theorem isClone_checkoutInv (r b : String) :
    isCloneInv (checkoutInv r b) = false := rfl

@[simp] theorem isClone_pullInv (r : String) (br : Option String) :
    isCloneInv (pullInv r br) = false := by
  cases br <;> rfl

@[simp] theorem isClone_revParseInv (r : String) :
    isCloneInv (revParseInv r) = false := rfl

@[simp] theorem isClone_cloneInv (u t : String) :
    isCloneInv (cloneInv u t) = true := rfl

theorem filter_clone_branchOps (env : GitEnv) (repo : String) (bs : List String) :
    (branchOps env repo bs).filter isCloneInv = [] := by
  induction bs with
  | nil => rfl
  | cons b rest ih =>
    cases h : (env.checkoutRes repo b).success <;> simp [branchOps, h, ih]

theorem filter_clone_restoreOps (env : GitEnv) (repo : String) (n : Nat) :
    (restoreOps env repo n).filter isCloneInv = [] := by
  unfold restoreOps
  split
  · split <;> simp
  · rfl

theorem filter_clone_explicitOps (env : GitEnv) (repo : String)
    (bs : List String) (n : Nat) :
    (explicitOps env repo bs n).filter isCloneInv = [] := by
  simp [explicitOps, List.filter_append, filter_clone_branchOps,
    filter_clone_restoreOps]

theorem isClone_mem_branchOps (env : GitEnv) (repo : String)
    (bs : List String) : ∀ a ∈ branchOps env repo bs, isCloneInv a = false := by
  intro a ha
  by_contra hne
  have ht : isCloneInv a = true := by
    cases hc : isCloneInv a
    · exact absurd hc hne
    · rfl
  have hm : a ∈ (branchOps env repo bs).filter isCloneInv :=
    List.mem_filter.mpr ⟨ha, ht⟩
  rw [filter_clone_branchOps] at hm
  exact absurd hm (List.not_mem_nil a)

theorem isClone_mem_restoreOps (env : GitEnv) (repo : String) (n : Nat) :
    ∀ a ∈ restoreOps env repo n, isCloneInv a = false := by
  intro a ha
  by_contra hne
  have ht : isCloneInv a = true := by
    cases hc : isCloneInv a
    · exact absurd hc hne
    · rfl
  have hm : a ∈ (restoreOps env repo n).filter isCloneInv :=
    List.mem_filter.mpr ⟨ha, ht⟩
  rw [filter_clone_restoreOps] at hm
  exact absurd hm (List.not_mem_nil a)

theorem run_projects_spec (env : GitEnv) (parent_clone_dir : String)
    (ps : List ProjectConfig) :
    run_projects env ps parent_clone_dir =
      (ps.map (fun c => (process_project env c parent_clone_dir).1),
       ps.any (projectFailed env parent_clone_dir)) := by
  have aux : ∀ (qs : List ProjectConfig)
      (acc : List (Except ProjectError Unit) × Bool),
      List.foldl (fun acc project_config =>
        match (process_project env project_config parent_clone_dir).1 with
        | .ok _ => (acc.1 ++ [Except.ok ()], acc.2)
        | .error e => (acc.1 ++ [Except.error e], true)) acc qs
      = (acc.1 ++ qs.map (fun c => (process_project env c parent_clone_dir).1),
         acc.2 || qs.any (projectFailed env parent_clone_dir)) := by
    intro qs
    induction qs with
    | nil => intro acc; simp
    | cons c rest ih =>
      intro acc
      rw [List.foldl_cons]
      have hfc : projectFailed env parent_clone_dir c =
          match (process_project env c parent_clone_dir).1 with
          | .ok _ => false
          | .error _ => true := rfl
      cases hr : (process_project env c parent_clone_dir).1 with
      | ok u =>
        cases u
        simp only [hr, ih]
        simp [hfc, hr, List.append_assoc, Bool.or_assoc]
      | error e =>
        simp only [hr, ih]
        simp [hfc, hr, List.append_assoc, Bool.or_assoc]
  unfold run_projects
  rw [aux ps ([], false)]
  simp

@[simp] theorem isCheckout_revParseInv (r : String) :
    isCheckoutInv (revParseInv r) = false := rfl

@[simp] theorem isCheckout_pullInv (r : String) (br : Option String) :
    isCheckoutInv (pullInv r br) = false := by
  cases br <;> rfl

@[simp] theorem isCheckout_checkoutInv (r b : String) :
    isCheckoutInv (checkoutInv r b) = true := rfl

@[simp] theorem isPull_revParseInv (r : String) :
    isPullInv (revParseInv r) = false := rfl

@[simp] theorem isPull_checkoutInv (r b : String) :
    isPullInv (checkoutInv r b) = false := rfl

@[simp] theorem isPull_pullInv (r : String) (br : Option String) :
    isPullInv (pullInv r br) = true := by
  cases br <;> rfl

theorem isEmpty_false_of_ne_nil {α : Type} {bs : List α} (h : bs ≠ []) :
    bs.isEmpty = false := by
  cases bs with
  | nil => exact absurd rfl h
  | cons b rest => rfl

/- ---------- claim theorems ---------- -/

/-- C10: the pull command differs by plan shape: pulling an explicitly listed
branch invokes `git pull origin <branch>` with the remote name fixed to
`origin`, while pulling with no listed branch invokes plain `git pull` with no
remote or branch argument. -/
theorem pull_command_shape (env : GitEnv) (repo_path : String)
    (branch_to_pull : Option String) (project_name : String) (s : SyncState) :
    (pull_branch_updates env repo_path branch_to_pull project_name s).2.trace =
      s.trace ++ [⟨some repo_path,
        match branch_to_pull with
        | some b => ["pull", "origin", b]
        | none => ["pull"]⟩] := by
  rw [pull_snd]
  cases branch_to_pull <;> rfl

/-- C6: a pull whose subprocess exits zero returns `Ok`; it is reported as the
informational no-op success exactly when the captured standard output contains
one of the canonical case-sensitively matched up-to-date phrases, and as an
updated success otherwise. -/
theorem pull_up_to_date_noop_success (env : GitEnv) (repo_path : String)
    (branch_to_pull : Option String) (project_name : String) (s : SyncState)
    (h : (env.pullRes repo_path branch_to_pull).success = true) :
    (pull_branch_updates env repo_path branch_to_pull project_name s).1 =
      .ok (if strContains (env.pullRes repo_path branch_to_pull).stdout
              "Already up to date." ||
            strContains (env.pullRes repo_path branch_to_pull).stdout
              "Bereits aktuell."
          then .alreadyUpToDate else .updated) := by
  cases hc : strContains (env.pullRes repo_path branch_to_pull).stdout
      "Already up to date." ||
    strContains (env.pullRes repo_path branch_to_pull).stdout "Bereits aktuell."
  · simp [pull_branch_updates, h, hc]
  · simp [pull_branch_updates, h, hc]

/-- Witness for C6: with captured output `"Already up to date.\n"` the pull is
classified as the no-op success. -/
theorem pull_up_to_date_noop_success_witness :
    (envPullUTD.pullRes "/w/app" none).success = true ∧
    (pull_branch_updates envPullUTD "/w/app" none "P" ⟨0, []⟩).1 =
      .ok .alreadyUpToDate := by
  refine ⟨rfl, ?_⟩
  have h := pull_up_to_date_noop_success envPullUTD "/w/app" none "P" ⟨0, []⟩ rfl
  rw [h]
  decide

/-- C7 counterexample: a pull that exits non-zero is classified as an error
even when its captured output contains the canonical up-to-date phrase — the
caller never turns a non-zero exit into a success by inspecting output. -/
theorem nonzero_exit_pull_counterexample :
    (pull_branch_updates envNonZero "/w/app" none "P" ⟨0, []⟩).1 =
      .error (.commandFailed "P" "git pull" "Already up to date." "") := by
  decide

/-- C7 (amended): every completed git subprocess with non-zero exit status is
unconditionally classified as a failure carrying the captured output — for
pulls, checkouts, clones and branch queries alike; output-text inspection
happens only for zero-exit pulls. -/
theorem nonzero_exit_always_classified_failure (env : GitEnv)
    (repo_path branch project_name repo_url target_path : String)
    (branch_to_pull : Option String) (s : SyncState) :
    ((env.pullRes repo_path branch_to_pull).success = false →
      (pull_branch_updates env repo_path branch_to_pull project_name s).1 =
        .error (.commandFailed project_name
          (match branch_to_pull with
           | some b => "git pull origin " ++ b
           | none => "git pull")
          (strTrim (env.pullRes repo_path branch_to_pull).stdout)
          (strTrim (env.pullRes repo_path branch_to_pull).stderr))) ∧
    ((env.cloneRes repo_url target_path).success = false →
      (clone_repo env project_name repo_url target_path s).1 =
        .error (.commandFailed project_name
          ("git clone " ++ repo_url ++ " " ++ target_path)
          (strTrim (env.cloneRes repo_url target_path).stdout)
          (strTrim (env.cloneRes repo_url target_path).stderr))) ∧
    ((env.checkoutRes repo_path branch).success = false →
      (checkout_branch env repo_path branch project_name s).1 =
        .error (.commandFailed project_name ("git checkout " ++ branch)
          (strTrim (env.checkoutRes repo_path branch).stdout)
          (strTrim (env.checkoutRes repo_path branch).stderr))) ∧
    ((env.revParse repo_path s.revCount).success = false →
      (get_current_branch env repo_path project_name s).1 =
        .error (.branchInfoError project_name
          ("Failed to get current branch. Git stderr: " ++
            strTrim (env.revParse repo_path s.revCount).stderr))) := by
  refine ⟨?_, ?_, ?_, ?_⟩ <;> intro h <;>
    simp [pull_branch_updates, clone_repo, checkout_branch, get_current_branch, h]

/-- Witness for C7 (amended): in an environment where every git subprocess
exits non-zero, each of the four operations returns the corresponding
error. -/
theorem nonzero_exit_always_classified_failure_witness :
    ((envNonZero.pullRes "/r" none).success = false ∧
      (pull_branch_updates envNonZero "/r" none "P" ⟨0, []⟩).1 =
        .error (.commandFailed "P" "git pull" "Already up to date." "")) ∧
    ((envNonZero.cloneRes "u" "/t").success = false ∧
      (clone_repo envNonZero "P" "u" "/t" ⟨0, []⟩).1 =
        .error (.commandFailed "P" "git clone u /t" "o" "e")) ∧
    ((envNonZero.checkoutRes "/r" "b").success = false ∧
      (checkout_branch envNonZero "/r" "b" "P" ⟨0, []⟩).1 =
        .error (.commandFailed "P" "git checkout b" "o" "e")) ∧
    ((envNonZero.revParse "/r" 0).success = false ∧
      (get_current_branch envNonZero "/r" "P" ⟨0, []⟩).1 =
        .error (.branchInfoError "P"
          "Failed to get current branch. Git stderr: e")) := by
  obtain ⟨h1, h2, h3, h4⟩ :=
    nonzero_exit_always_classified_failure envNonZero "/r" "b" "P" "u" "/t" none ⟨0, []⟩
  refine ⟨⟨rfl, ?_⟩, ⟨rfl, ?_⟩, ⟨rfl, ?_⟩, ⟨rfl, ?_⟩⟩
  · rw [h1 rfl]; decide
  · rw [h2 rfl]; decide
  · rw [h3 rfl]; decide
  · rw [h4 rfl]; decide

/-- C8 counterexample: a clone of `/w/app`, whose parent directory is `/w`, is
issued with no working directory at all (`cwd = none`), not with the parent of
the target. -/
theorem clone_workdir_counterexample :
    (clone_repo envAllOk "P" "u" "/w/app" ⟨0, []⟩).2.trace =
      [⟨none, ["clone", "u", "/w/app"]⟩] ∧
    parentOf "/w/app" = some "/w" ∧
    (Invocation.mk none ["clone", "u", "/w/app"]).cwd ≠ some "/w" := by
  decide

/-- C8 (amended): the clone subprocess is invoked with no working-directory
override — it inherits the process working directory and receives the target
path purely as a command argument. -/
theorem clone_runs_without_workdir_override (env : GitEnv)
    (project_name repo_url target_path : String) (s : SyncState) :
    (clone_repo env project_name repo_url target_path s).2.trace =
      s.trace ++ [⟨none, ["clone", repo_url, target_path]⟩] := by
  simp only [clone_repo]
  split <;> rfl

/-- C2: for a project whose `pull_branches` is absent or explicitly empty, the
branch-sync section invokes no checkout and exactly one pull, the plain
`git pull` carrying no branch argument, against the currently checked-out
branch; the project returns success. -/
theorem no_branches_single_plain_pull (env : GitEnv) (config : ProjectConfig)
    (parent_clone_dir pp : String)
    (hpp : pp = resolve_project_path env.home parent_clone_dir config.path)
    (hpb : config.pull_branches = none ∨ config.pull_branches = some [])
    (hex : env.pathExists pp = true)
    (hgit : is_git_repo env pp = true) :
    (process_project env config parent_clone_dir).1 = .ok () ∧
    (process_project env config parent_clone_dir).2.trace =
      [revParseInv pp, pullInv pp none] ∧
    (process_project env config parent_clone_dir).2.trace.filter isCheckoutInv
      = [] ∧
    (process_project env config parent_clone_dir).2.trace.filter isPullInv
      = [⟨some pp, ["pull"]⟩] := by
  subst hpp
  rcases hpb with h | h <;>
    simp [process_project, clone_phase_exists, hex, hgit, h,
      current_sync_trace, List.filter] <;>
    rfl

/-- Witness for C2: concrete run with `pull_branches` absent. -/
theorem no_branches_single_plain_pull_witness :
    (process_project envAllOk cfgNoBranches "/w").1 = .ok () ∧
    (process_project envAllOk cfgNoBranches "/w").2.trace =
      [revParseInv "/w/app", pullInv "/w/app" none] ∧
    (process_project envAllOk cfgNoBranches "/w").2.trace.filter isCheckoutInv
      = [] ∧
    (process_project envAllOk cfgNoBranches "/w").2.trace.filter isPullInv
      = [⟨some "/w/app", ["pull"]⟩] :=
  no_branches_single_plain_pull envAllOk cfgNoBranches "/w" "/w/app"
    (by decide) (Or.inl rfl) rfl rfl

/-- C3: for an explicit non-empty branch list the project always returns
success, and its trace is the branch query followed by `branchOps` — one
checkout per listed branch in declared order, each followed by a pull exactly
when that checkout succeeded — followed by the best-effort restore step; so a
failed checkout skips only its own pull, the next listed branch is still
attempted, and no checkout, pull or restore failure escalates. -/
theorem checkout_failure_isolated (env : GitEnv) (config : ProjectConfig)
    (parent_clone_dir pp : String) (bs : List String)
    (hpp : pp = resolve_project_path env.home parent_clone_dir config.path)
    (hpb : config.pull_branches = some bs) (hne : bs ≠ [])
    (hex : env.pathExists pp = true)
    (hgit : is_git_repo env pp = true) :
    (process_project env config parent_clone_dir).1 = .ok () ∧
    (process_project env config parent_clone_dir).2.trace =
      revParseInv pp :: (branchOps env pp bs ++ restoreOps env pp 0) := by
  subst hpp
  simp [process_project, clone_phase_exists, hex, hgit, hpb,
    isEmpty_false_of_ne_nil hne, explicit_sync_trace, explicitOps]

/-- Witness for C3: with checkout of `a` failing and checkout of `b`
succeeding, the project still succeeds, branch `a` gets no pull, branch `b` is
still attempted and pulled. -/
theorem checkout_failure_isolated_witness :
    ((process_project envCoFail cfgTwoBranches "/w").1 = .ok () ∧
      (process_project envCoFail cfgTwoBranches "/w").2.trace =
        revParseInv "/w/app" ::
          (branchOps envCoFail "/w/app" ["a", "b"] ++
            restoreOps envCoFail "/w/app" 0)) ∧
    branchOps envCoFail "/w/app" ["a", "b"] =
      [checkoutInv "/w/app" "a", checkoutInv "/w/app" "b",
       pullInv "/w/app" (some "b")] :=
  ⟨checkout_failure_isolated envCoFail cfgTwoBranches "/w" "/w/app" ["a", "b"]
      (by decide) rfl (by decide) rfl rfl,
   by decide⟩

/-- C1: for an explicit non-empty branch list with every listed checkout
succeeding and both branch queries succeeding, the engine invokes — in
declared order — checkout of each listed branch immediately followed by a pull
of it, and afterwards, when the branch reported after the loop differs from
the originally recorded one, a single restoring checkout of the original
branch. -/
theorem explicit_branches_in_order_then_restore (env : GitEnv)
    (config : ProjectConfig) (parent_clone_dir pp : String) (bs : List String)
    (hpp : pp = resolve_project_path env.home parent_clone_dir config.path)
    (hpb : config.pull_branches = some bs) (hne : bs ≠ [])
    (hex : env.pathExists pp = true)
    (hgit : is_git_repo env pp = true)
    (hco : ∀ b ∈ bs, (env.checkoutRes pp b).success = true)
    (hq0 : (env.revParse pp 0).success = true)
    (hq1 : (env.revParse pp 1).success = true) :
    (process_project env config parent_clone_dir).1 = .ok () ∧
    (process_project env config parent_clone_dir).2.trace =
      revParseInv pp ::
        (branchOpsAll pp bs ++
          (revParseInv pp ::
            (if strTrim (env.revParse pp 1).stdout ≠
                  strTrim (env.revParse pp 0).stdout
             then [checkoutInv pp (strTrim (env.revParse pp 0).stdout)]
             else []))) := by
  subst hpp
  have hbo := branchOps_all env
    (resolve_project_path env.home parent_clone_dir config.path) bs hco
  have hro : restoreOps env
      (resolve_project_path env.home parent_clone_dir config.path) 0 =
      revParseInv (resolve_project_path env.home parent_clone_dir config.path) ::
        (if strTrim (env.revParse
              (resolve_project_path env.home parent_clone_dir config.path) 1).stdout ≠
            strTrim (env.revParse
              (resolve_project_path env.home parent_clone_dir config.path) 0).stdout
         then [checkoutInv
                (resolve_project_path env.home parent_clone_dir config.path)
                (strTrim (env.revParse
                  (resolve_project_path env.home parent_clone_dir config.path) 0).stdout)]
         else []) := by
    simp [restoreOps, branchQueryResult, hq0, hq1]
  simp [process_project, clone_phase_exists, hex, hgit, hpb,
    isEmpty_false_of_ne_nil hne, explicit_sync_trace, explicitOps, hbo, hro]

/-- Witness for C1: both checkouts succeed, the original branch is `main`, the
branch after the loop is `b`, so the trace is checkout `a`, pull `a`, checkout
`b`, pull `b`, query, restore checkout of `main`. -/
theorem explicit_branches_in_order_then_restore_witness :
    ((process_project envAllOk cfgTwoBranches "/w").1 = .ok () ∧
      (process_project envAllOk cfgTwoBranches "/w").2.trace =
        revParseInv "/w/app" ::
          (branchOpsAll "/w/app" ["a", "b"] ++
            (revParseInv "/w/app" ::
              (if strTrim (envAllOk.revParse "/w/app" 1).stdout ≠
                    strTrim (envAllOk.revParse "/w/app" 0).stdout
               then [checkoutInv "/w/app"
                      (strTrim (envAllOk.revParse "/w/app" 0).stdout)]
               else [])))) ∧
    (process_project envAllOk cfgTwoBranches "/w").2.trace =
      [revParseInv "/w/app",
       checkoutInv "/w/app" "a", pullInv "/w/app" (some "a"),
       checkoutInv "/w/app" "b", pullInv "/w/app" (some "b"),
       revParseInv "/w/app", checkoutInv "/w/app" "main"] :=
  ⟨explicit_branches_in_order_then_restore envAllOk cfgTwoBranches "/w"
      "/w/app" ["a", "b"] (by decide) rfl (by decide) rfl rfl
      (fun _ _ => rfl) rfl rfl,
   by decide⟩

/-- C5: for a project whose resolved target path does not exist (and whose
parent directory can be ensured), the very first git invocation is the single
clone, carrying the configured remote URL and the resolved path — so no
checkout or pull is invoked before it — and exactly one clone appears in the
whole trace; when the clone exits non-zero the project returns
`ProjectError::GitOperation` and the clone is the only git operation
performed. -/
theorem clone_when_target_absent (env : GitEnv) (config : ProjectConfig)
    (parent_clone_dir pp : String)
    (hpp : pp = resolve_project_path env.home parent_clone_dir config.path)
    (habs : env.pathExists pp = false)
    (hdir : ensure_parent_ok env pp = true) :
    (process_project env config parent_clone_dir).2.trace.head? =
      some (cloneInv config.url pp) ∧
    ((process_project env config parent_clone_dir).2.trace.filter
      isCloneInv).length = 1 ∧
    ((env.cloneRes config.url pp).success = false →
      (process_project env config parent_clone_dir).1 =
        .error (.gitOperation config.project
          (.commandFailed config.project
            ("git clone " ++ config.url ++ " " ++ pp)
            (strTrim (env.cloneRes config.url pp).stdout)
            (strTrim (env.cloneRes config.url pp).stderr))) ∧
      (process_project env config parent_clone_dir).2.trace =
        [cloneInv config.url pp]) := by
  subst hpp
  simp only [process_project]
  set rp := resolve_project_path env.home parent_clone_dir config.path with hrp
  rw [clone_phase_absent env config rp ⟨0, []⟩ habs hdir]
  cases hcl : (env.cloneRes config.url rp).success
  · rw [clone_repo_fail env config.project config.url rp ⟨0, []⟩ hcl]
    simp [record, hcl]
  · rw [clone_repo_ok env config.project config.url rp ⟨0, []⟩ hcl]
    dsimp only
    cases hg : env.isGitRepo rp
    · simp [is_git_repo, hg, record, hcl]
    · cases hpbv : config.pull_branches with
      | none =>
        simp [is_git_repo, hg, record, hcl, current_sync_trace, List.filter]
      | some bs =>
        cases hbe : bs.isEmpty
        · simp [is_git_repo, hg, record, hcl, hbe, explicit_sync_trace,
            List.filter_append, filter_clone_explicitOps, List.filter]
          exact ⟨isClone_mem_branchOps env rp bs, isClone_mem_restoreOps env rp 0⟩
        · simp [is_git_repo, hg, record, hcl, hbe, current_sync_trace,
            List.filter]

/-- Witness for C5: the target `/w/bad` is absent and the clone exits
non-zero, so the trace is exactly the clone invocation and the project fails
with `GitOperation`. -/
theorem clone_when_target_absent_witness :
    (process_project envCloneFail cfgBad "/w").2.trace.head? =
      some (cloneInv "uB" "/w/bad") ∧
    (process_project envCloneFail cfgBad "/w").1 =
      .error (.gitOperation "B"
        (.commandFailed "B" "git clone uB /w/bad" "boom" "")) ∧
    (process_project envCloneFail cfgBad "/w").2.trace =
      [cloneInv "uB" "/w/bad"] := by
  obtain ⟨h1, h2, h3⟩ := clone_when_target_absent envCloneFail cfgBad "/w"
    "/w/bad" (by decide) (by decide) (by decide)
  obtain ⟨h4, h5⟩ := h3 rfl
  refine ⟨h1, ?_, h5⟩
  rw [h4]
  decide

/-- C4: when one project in an ordered list fails with a `ProjectError`, the
orchestrator still processes every project in declared order (the outcome list
is the full per-project map), records the failure at that project's position,
sets the failure flag, and the run summary reports that errors occurred. -/
theorem orchestrator_continues_after_error (env : GitEnv)
    (parent_clone_dir : String) (pre post : List ProjectConfig)
    (p : ProjectConfig) (e : ProjectError)
    (hfail : (process_project env p parent_clone_dir).1 = .error e) :
    (run_projects env (pre ++ p :: post) parent_clone_dir).1 =
      (pre ++ p :: post).map
        (fun c => (process_project env c parent_clone_dir).1) ∧
    (run_projects env (pre ++ p :: post) parent_clone_dir).1.get? pre.length =
      some (.error e) ∧
    (run_projects env (pre ++ p :: post) parent_clone_dir).2 = true ∧
    run_summary_message (run_projects env (pre ++ p :: post) parent_clone_dir).2
      = "Some projects encountered errors. Check project_fetcher.log for details." := by
  have hspec := run_projects_spec env parent_clone_dir (pre ++ p :: post)
  have hp : projectFailed env parent_clone_dir p = true := by
    simp [projectFailed, hfail]
  have hflag : (pre ++ p :: post).any (projectFailed env parent_clone_dir)
      = true := by
    simp [List.any_append, List.any_cons, hp]
  refine ⟨?_, ?_, ?_, ?_⟩
  · rw [hspec]
  · rw [hspec]
    rw [List.map_append, List.map_cons]
    rw [List.get?_append_right (by simp)]
    simp [hfail]
  · rw [hspec]
    exact hflag
  · rw [hspec]
    simp [hflag, run_summary_message]

/-- Witness for C4: with the middle project's clone failing, all three
projects are processed in order, the failure is recorded second, and the
summary message reports errors. -/
theorem orchestrator_continues_after_error_witness :
    (run_projects envCloneFail [cfgGoodOne, cfgBad, cfgGoodTwo] "/w").1 =
      [cfgGoodOne, cfgBad, cfgGoodTwo].map
        (fun c => (process_project envCloneFail c "/w").1) ∧
    (run_projects envCloneFail [cfgGoodOne, cfgBad, cfgGoodTwo] "/w").1.get? 1 =
      some (.error (.gitOperation "B"
        (.commandFailed "B" "git clone uB /w/bad" "boom" ""))) ∧
    (run_projects envCloneFail [cfgGoodOne, cfgBad, cfgGoodTwo] "/w").2 =
      true ∧
    run_summary_message
        (run_projects envCloneFail [cfgGoodOne, cfgBad, cfgGoodTwo] "/w").2
      = "Some projects encountered errors. Check project_fetcher.log for details." :=
  orchestrator_continues_after_error envCloneFail "/w" [cfgGoodOne]
    [cfgGoodTwo] cfgBad
    (.gitOperation "B" (.commandFailed "B" "git clone uB /w/bad" "boom" ""))
    (by decide)

theorem isAbsolute_append (a b : String) (h : isAbsolute a = true) :
    isAbsolute (a ++ b) = true := by
  unfold isAbsolute at h ⊢
  rw [String.data_append]
  cases hd : a.data with
  | nil => rw [hd] at h; simp at h
  | cons c t => rw [hd] at h; simpa using h

theorem data_ne_nil_of_abs (a : String) (h : isAbsolute a = true) :
    a.data ≠ [] := by
  intro hd
  unfold isAbsolute at h
  rw [hd] at h
  simp at h

theorem tildeExpand_id_of_not_abs (home path : String)
    (h1 : isAbsolute home = true)
    (h : isAbsolute (tildeExpand home path) = false) :
    tildeExpand home path = path := by
  unfold tildeExpand at h ⊢
  split at h
  · rw [h1] at h
    exact absurd h (by decide)
  · rw [isAbsolute_append home _ h1] at h
    exact absurd h (by decide)
  · rfl

/-- C9: a configured project path that is absolute after tilde expansion
resolves to itself regardless of the parent directory; a non-absolute one
resolves to the effective parent directory joined with the configured path;
and with `default_clone_parent_directory = "~/work"` the effective parent
directory is the home directory joined with `work`. -/
theorem path_resolution_rule (home config_file_dir app_cwd parent_dir path : String)
    (h1 : isAbsolute home = true)
    (h2 : home.data.getLast? ≠ some '/') :
    effective_parent_dir home config_file_dir app_cwd (some "~/work") =
      pathJoin home "work" ∧
    (isAbsolute (tildeExpand home path) = true →
      resolve_project_path home parent_dir path = tildeExpand home path) ∧
    (isAbsolute (tildeExpand home path) = false →
      resolve_project_path home parent_dir path = pathJoin parent_dir path) := by
  refine ⟨?_, ?_, ?_⟩
  · have he : tildeExpand home "~/work" = home ++ "/work" := rfl
    have habs : isAbsolute (home ++ "/work") = true :=
      isAbsolute_append home "/work" h1
    unfold effective_parent_dir
    dsimp only
    rw [if_neg (by decide), he, habs, if_pos rfl]
    unfold pathJoin
    rw [if_neg (by decide), if_neg (data_ne_nil_of_abs home h1), if_neg h2]
    apply String.ext
    rw [String.data_append, String.data_append, String.data_append,
      List.append_assoc]
    rfl
  · intro h
    unfold resolve_project_path
    rw [if_pos h]
  · intro h
    unfold resolve_project_path
    rw [if_neg (by simp [h]), tildeExpand_id_of_not_abs home path h1 h]

/-- Witness for C9: with home `/home/u`, the effective parent for `~/work` is
`/home/u/work`; the relative path `app` resolves under the parent `/w`, and
the absolute path `/abs/app` resolves to itself. -/
theorem path_resolution_rule_witness :
    (effective_parent_dir "/home/u" "/cfg" "/cwd" (some "~/work") =
      pathJoin "/home/u" "work" ∧
    (isAbsolute (tildeExpand "/home/u" "app") = true →
      resolve_project_path "/home/u" "/w" "app" = tildeExpand "/home/u" "app") ∧
    (isAbsolute (tildeExpand "/home/u" "app") = false →
      resolve_project_path "/home/u" "/w" "app" = pathJoin "/w" "app")) ∧
    (isAbsolute (tildeExpand "/home/u" "/abs/app") = true →
      resolve_project_path "/home/u" "/cfg2" "/abs/app" =
        tildeExpand "/home/u" "/abs/app") :=
  ⟨path_resolution_rule "/home/u" "/cfg" "/cwd" "/w" "app"
      (by decide) (by decide),
   (path_resolution_rule "/home/u" "/c" "/d" "/cfg2" "/abs/app"
      (by decide) (by decide)).2.1⟩

end GitProjectFetcher
